import Mathlib

/-!
Verification development for the OpenAPI documentation engine
(`src/utils/openApiParser.ts` and `src/utils/codeGenerator.ts`).

The TypeScript utilities operate on plain JavaScript values (the parsed
OpenAPI document and its sub-nodes), so the shallow embedding models the
JavaScript data universe directly: `JsValue` is the JSON-like value tree
(extended with `undefined` for JavaScript's `undefined`), property access,
truthiness, `Object.entries`, string conversion and strict equality are
modelled as total Lean functions following ECMAScript semantics for the
representable values.

Model notes (documented restrictions of the embedding):
  * numbers are modelled as integers (the claims involve only integral
    numeric values; `NaN` and floats are not representable);
  * `x?.[p]` (optional chaining) never throws; plain accesses `x[p]` in the
    source occur only on values already checked truthy, where plain access
    agrees with `jsAccess`;
  * JavaScript `Map` keys are compared with structural equality here; the
    source only ever uses primitive (string) keys, where `SameValueZero`
    coincides with structural equality;
  * spots where the original JavaScript would throw a `TypeError` on
    ill-typed spec documents (for example `forEach` on a truthy non-array)
    are modelled by a harmless result; no claim depends on those spots.

Functions that can diverge in JavaScript (schema resolution and example
synthesis on cyclic reference graphs) take an explicit fuel argument and
return `Option`: `none` models a non-terminating (stack-overflowing) run,
`some v` a run that returns the JavaScript value `v`.
-/

/-- A JavaScript value as manipulated by the parser utilities: the JSON
value universe plus `undefined`.  Object fields are kept in insertion
order, matching JavaScript object key enumeration for non-integer string
keys (the only keys the source uses). -/
inductive JsValue where
  | undefined : JsValue
  | null : JsValue
  | bool : Bool → JsValue
  | num : Int → JsValue
  | str : String → JsValue
  | arr : List JsValue → JsValue
  | obj : List (String × JsValue) → JsValue
deriving Repr

mutual

/-- Decidable structural equality on JavaScript values (written by hand
because the nested-inductive deriving handler is unavailable). -/
def jsDecEq : (a b : JsValue) → Decidable (a = b)
  | .undefined, .undefined => isTrue rfl
  | .null, .null => isTrue rfl
  | .bool x, .bool y =>
      if h : x = y then isTrue (by rw [h]) else
        isFalse (fun hh => h (by injection hh))
  | .num x, .num y =>
      if h : x = y then isTrue (by rw [h]) else
        isFalse (fun hh => h (by injection hh))
  | .str x, .str y =>
      if h : x = y then isTrue (by rw [h]) else
        isFalse (fun hh => h (by injection hh))
  | .arr x, .arr y =>
      match jsDecEqList x y with
      | isTrue h => isTrue (by rw [h])
      | isFalse h => isFalse (fun hh => h (by injection hh))
  | .obj x, .obj y =>
      match jsDecEqFields x y with
      | isTrue h => isTrue (by rw [h])
      | isFalse h => isFalse (fun hh => h (by injection hh))
  | .undefined, .null => isFalse (fun h => by injection h)
  | .undefined, .bool _ => isFalse (fun h => by injection h)
  | .undefined, .num _ => isFalse (fun h => by injection h)
  | .undefined, .str _ => isFalse (fun h => by injection h)
  | .undefined, .arr _ => isFalse (fun h => by injection h)
  | .undefined, .obj _ => isFalse (fun h => by injection h)
  | .null, .undefined => isFalse (fun h => by injection h)
  | .null, .bool _ => isFalse (fun h => by injection h)
  | .null, .num _ => isFalse (fun h => by injection h)
  | .null, .str _ => isFalse (fun h => by injection h)
  | .null, .arr _ => isFalse (fun h => by injection h)
  | .null, .obj _ => isFalse (fun h => by injection h)
  | .bool _, .undefined => isFalse (fun h => by injection h)
  | .bool _, .null => isFalse (fun h => by injection h)
  | .bool _, .num _ => isFalse (fun h => by injection h)
  | .bool _, .str _ => isFalse (fun h => by injection h)
  | .bool _, .arr _ => isFalse (fun h => by injection h)
  | .bool _, .obj _ => isFalse (fun h => by injection h)
  | .num _, .undefined => isFalse (fun h => by injection h)
  | .num _, .null => isFalse (fun h => by injection h)
  | .num _, .bool _ => isFalse (fun h => by injection h)
  | .num _, .str _ => isFalse (fun h => by injection h)
  | .num _, .arr _ => isFalse (fun h => by injection h)
  | .num _, .obj _ => isFalse (fun h => by injection h)
  | .str _, .undefined => isFalse (fun h => by injection h)
  | .str _, .null => isFalse (fun h => by injection h)
  | .str _, .bool _ => isFalse (fun h => by injection h)
  | .str _, .num _ => isFalse (fun h => by injection h)
  | .str _, .arr _ => isFalse (fun h => by injection h)
  | .str _, .obj _ => isFalse (fun h => by injection h)
  | .arr _, .undefined => isFalse (fun h => by injection h)
  | .arr _, .null => isFalse (fun h => by injection h)
  | .arr _, .bool _ => isFalse (fun h => by injection h)
  | .arr _, .num _ => isFalse (fun h => by injection h)
  | .arr _, .str _ => isFalse (fun h => by injection h)
  | .arr _, .obj _ => isFalse (fun h => by injection h)
  | .obj _, .undefined => isFalse (fun h => by injection h)
  | .obj _, .null => isFalse (fun h => by injection h)
  | .obj _, .bool _ => isFalse (fun h => by injection h)
  | .obj _, .num _ => isFalse (fun h => by injection h)
  | .obj _, .str _ => isFalse (fun h => by injection h)
  | .obj _, .arr _ => isFalse (fun h => by injection h)

/-- Decidable equality for lists of JavaScript values. -/
def jsDecEqList : (a b : List JsValue) → Decidable (a = b)
  | [], [] => isTrue rfl
  | [], _ :: _ => isFalse (fun h => by injection h)
  | _ :: _, [] => isFalse (fun h => by injection h)
  | x :: xs, y :: ys =>
      match jsDecEq x y, jsDecEqList xs ys with
      | isTrue h1, isTrue h2 => isTrue (by rw [h1, h2])
      | isFalse h1, _ => isFalse (fun h => h1 (by injection h))
      | _, isFalse h2 => isFalse (fun h => h2 (by injection h))

/-- Decidable equality for object field lists. -/
def jsDecEqFields : (a b : List (String × JsValue)) → Decidable (a = b)
  | [], [] => isTrue rfl
  | [], _ :: _ => isFalse (fun h => by injection h)
  | _ :: _, [] => isFalse (fun h => by injection h)
  | (k1, v1) :: xs, (k2, v2) :: ys =>
      if hk : k1 = k2 then
        match jsDecEq v1 v2, jsDecEqFields xs ys with
        | isTrue h1, isTrue h2 => isTrue (by rw [hk, h1, h2])
        | isFalse h1, _ => isFalse (fun h => by
            injection h with hhd htl
            exact h1 (congrArg Prod.snd hhd))
        | _, isFalse h2 => isFalse (fun h => h2 (by injection h))
      else
        isFalse (fun h => by
          injection h with hhd htl
          exact hk (congrArg Prod.fst hhd))

end

instance : DecidableEq JsValue := jsDecEq

/-- Character-level string prefix test (the JavaScript
`ref.startsWith(p)`), written over the character list so that it
evaluates by kernel reduction. -/
def strStartsWithChars : List Char → List Char → Bool
  | _, [] => true
  | [], _ :: _ => false
  | c :: cs, p :: ps => c = p && strStartsWithChars cs ps

/-- String prefix test on strings. -/
def strStartsWith (s p : String) : Bool := strStartsWithChars s.data p.data

/-- Dropping a leading character count (the JavaScript `s.slice(n)`;
code-unit versus character indexing coincides on the ASCII reference
strings the source handles). -/
def strDrop (n : Nat) (s : String) : String := String.mk (s.data.drop n)

/-- Splitting a character list at every occurrence of a separator; like
JavaScript `split`, an empty input gives one empty piece. -/
def splitCharList (sep : Char) : List Char → List (List Char)
  | [] => [[]]
  | c :: cs =>
      let rest := splitCharList sep cs
      if c = sep then [] :: rest
      else match rest with
        | [] => [[c]]
        | r :: rs => (c :: r) :: rs

/-- String splitting on a separator character (JavaScript
`s.split(sep)`). -/
def strSplitOn (sep : Char) (s : String) : List String :=
  (splitCharList sep s.data).map String.mk

/-- ASCII upper-casing of a string (JavaScript `toUpperCase` on the ASCII
method names the source handles). -/
def strUpper (s : String) : String := String.mk (s.data.map Char.toUpper)

/-- ASCII lower-casing of a string (JavaScript `toLowerCase`). -/
def strLower (s : String) : String := String.mk (s.data.map Char.toLower)

/-- Parse a list of decimal digits into a number; `none` if empty or any
character is not a digit. -/
def parseDigits : List Char → Option Nat
  | [] => none
  | cs => go cs 0
where
  go : List Char → Nat → Option Nat
    | [], acc => some acc
    | c :: cs, acc =>
        if c.isDigit then go cs (acc * 10 + (c.toNat - 48)) else none

/-- A JavaScript canonical array index: a string of decimal digits with
no superfluous leading zero.  Property access `arr[s]` hits an element
exactly when `s` is canonical (`"7"` is an index, `"07"` is not). -/
def canonIndex : String → Option Nat
  | s =>
    match s.data with
    | [] => none
    | c :: cs =>
        match parseDigits (c :: cs) with
        | none => none
        | some n => if c = '0' ∧ cs ≠ [] then none else some n

/-- JavaScript truthiness for the representable values: `undefined`,
`null`, `false`, `0` and the empty string are falsy, everything else is
truthy. -/
def jsTruthy : JsValue → Bool
  | .undefined => false
  | .null => false
  | .bool b => b
  | .num n => n != 0
  | .str s => s ≠ ""
  | .arr _ => true
  | .obj _ => true

/-- Field lookup in an object's field list: first binding wins. -/
def jsField : List (String × JsValue) → String → Option JsValue
  | [], _ => none
  | (k, v) :: rest, key => if k = key then some v else jsField rest key

/-- Property access `x?.[p]` (and `x[p]` on non-nullish `x`): objects look
up the named field; arrays and strings expose `length` and decimal
indices; accesses that would give `undefined` in JavaScript give
`JsValue.undefined`. -/
def jsAccess : JsValue → String → JsValue
  | .obj fields, key => (jsField fields key).getD .undefined
  | .arr elems, key =>
      if key = "length" then .num elems.length
      else match canonIndex key with
        | some i => (elems.get? i).getD .undefined
        | none => .undefined
  | .str s, key =>
      if key = "length" then .num s.data.length
      else match canonIndex key with
        | some i => ((s.data.get? i).map (fun c => .str (String.mk [c]))).getD .undefined
        | none => .undefined
  | _, _ => .undefined

/-- `Object.entries` for the representable values: objects list their
fields, arrays and strings their indexed elements, primitives have no
enumerable entries. -/
def jsEntries : JsValue → List (String × JsValue)
  | .obj fields => fields
  | .arr elems => (List.range elems.length).zip elems |>.map (fun p => (toString p.1, p.2))
  | .str s => (List.range s.data.length).zip (s.data.map (fun c => JsValue.str (String.mk [c]))) |>.map (fun p => (toString p.1, p.2))
  | _ => []

mutual

/-- JavaScript `String(x)` conversion for the representable values
(arrays join their converted elements with commas, objects print the
generic object tag). -/
def jsToString : JsValue → String
  | .undefined => "undefined"
  | .null => "null"
  | .bool b => if b then "true" else "false"
  | .num n => toString n
  | .str s => s
  | .arr elems => String.intercalate "," (jsToStringList elems)
  | .obj _ => "[object Object]"

/-- Element-wise string conversion for array contents. -/
def jsToStringList : List JsValue → List String
  | [] => []
  | x :: xs => jsToString x :: jsToStringList xs

end

/-! ### Reference resolution (`resolveRef`, `openApiParser.ts` lines 75-87) -/

/-- The loop of `resolveRef`: starting from the current value, each
segment is accessed with optional chaining and the loop bails out with
`undefined` as soon as the new current value is falsy
(`if (!current) return undefined`). -/
def walkParts : JsValue → List String → JsValue
  | cur, [] => cur
  | cur, p :: ps =>
      let next := jsAccess cur p
      if jsTruthy next then walkParts next ps else .undefined

/-- `resolveRef(spec, ref)`: only `#/`-prefixed references are followed;
the remainder of the reference string is split on `/` and walked from the
specification root. -/
def resolveRef (spec : JsValue) (ref : String) : JsValue :=
  if strStartsWith ref "#/" then walkParts spec (strSplitOn '/' (strDrop 2 ref))
  else .undefined

/-- Walking an empty-or-more segment list from `undefined` stays
`undefined`: optional chaining yields `undefined`, which is falsy. -/
theorem walkParts_undef (ps : List String) : walkParts .undefined ps = .undefined := by
  cases ps with
  | nil => rfl
  | cons p ps => simp [walkParts, jsAccess, jsTruthy]

/-- The segment walk splits over list append. -/
theorem walkParts_append (xs ys : List String) (cur : JsValue) :
    walkParts cur (xs ++ ys) = walkParts (walkParts cur xs) ys := by
  induction xs generalizing cur with
  | nil => rfl
  | cons p ps ih =>
      simp only [List.cons_append, walkParts]
      by_cases h : jsTruthy (jsAccess cur p) = true
      · simp only [h, if_true]
        exact ih _
      · simp only [Bool.not_eq_true] at h
        simp only [h, Bool.false_eq_true, if_false, walkParts_undef]

/-- If the walk state before some segment has a falsy access at that
segment, the whole walk returns `undefined`. -/
theorem walkParts_split_falsy (spec : JsValue) (pre : List String)
    (part : String) (post : List String)
    (h : jsTruthy (jsAccess (walkParts spec pre) part) = false) :
    walkParts spec (pre ++ part :: post) = .undefined := by
  rw [walkParts_append]
  simp only [walkParts, h, Bool.false_eq_true, if_false]

/-- C8: a reference string not prefixed with "#/" resolves to absent, and
a reference whose walk from the specification root reaches a state whose
next segment is missing (the property access gives `undefined`) resolves
to absent; the embedding is a total function, so no exception can be
raised. -/
theorem resolveRef_missing_segment_absent :
    (∀ spec ref, strStartsWith ref "#/" = false → resolveRef spec ref = .undefined) ∧
    (∀ spec ref pre part post v,
      strStartsWith ref "#/" = true →
      strSplitOn '/' (strDrop 2 ref) = pre ++ part :: post →
      walkParts spec pre = v →
      jsTruthy v = true →
      jsAccess v part = .undefined →
      resolveRef spec ref = .undefined) := by
  constructor
  · intro spec ref h
    simp [resolveRef, h]
  · intro spec ref pre part post v hpre hsplit hwalk _ hmiss
    simp only [resolveRef, hpre, if_true, hsplit]
    apply walkParts_split_falsy
    rw [hwalk, hmiss]
    rfl

/-- Witness for C8: a dangling component reference resolves to absent,
and a reference without the "#/" prefix resolves to absent. -/
theorem resolveRef_missing_segment_absent_witness :
    resolveRef (.obj [("components", .obj [("schemas", .obj [])])])
      "#/components/schemas/Missing" = .undefined ∧
    resolveRef (.obj [("components", .obj [])]) "definitions/Pet" = .undefined :=
  ⟨resolveRef_missing_segment_absent.2
      (.obj [("components", .obj [("schemas", .obj [])])])
      "#/components/schemas/Missing"
      ["components", "schemas"] "Missing" [] (.obj [])
      (by decide) (by decide) (by decide) (by decide) (by decide),
   resolveRef_missing_segment_absent.1 (.obj [("components", .obj [])])
      "definitions/Pet" (by decide)⟩

/-- C10: resolution bails out with absent whenever an intermediate walk
value is falsy — even when the accessed property exists and holds a
defined falsy value such as 0 or the empty string. -/
theorem resolveRef_falsy_intermediate_absent :
    ∀ spec ref pre part post u v,
      strStartsWith ref "#/" = true →
      strSplitOn '/' (strDrop 2 ref) = pre ++ part :: post →
      walkParts spec pre = u →
      jsTruthy u = true →
      jsAccess u part = v →
      jsTruthy v = false →
      resolveRef spec ref = .undefined := by
  intro spec ref pre part post u v hpre hsplit hwalk _ hacc hfalsy
  simp only [resolveRef, hpre, if_true, hsplit]
  apply walkParts_split_falsy
  rw [hwalk, hacc, hfalsy]

/-- Witness for C10: the property "a" exists with value 0, yet the
reference "#/a" resolves to absent because 0 is falsy. -/
theorem resolveRef_falsy_intermediate_absent_witness :
    resolveRef (.obj [("a", .num 0)]) "#/a" = .undefined :=
  resolveRef_falsy_intermediate_absent (.obj [("a", .num 0)]) "#/a"
    [] "a" [] (.obj [("a", .num 0)]) (.num 0)
    (by decide) (by decide) (by decide) (by decide) (by decide) (by decide)

/-! ### Schema resolution (`resolveSchema`, `openApiParser.ts` lines 89-98) -/

/-- `resolveSchema(spec, schema)`. A falsy argument resolves to
`undefined`; a node with a truthy `$ref` is dereferenced through
`resolveRef` and the target is resolved recursively (references to
references); any other node resolves to itself.  The fuel argument
bounds the recursion depth: `none` models the stack overflow a cyclic
reference chain would cause in JavaScript.  A truthy non-string `$ref`
(which would make `ref.startsWith` throw in JavaScript) is modelled as
resolving to `undefined`; no claim depends on that spot. -/
def resolveSchemaF : Nat → JsValue → JsValue → Option JsValue
  | 0, _, _ => none
  | fuel + 1, spec, schema =>
      if jsTruthy schema then
        let refv := jsAccess schema "$ref"
        if jsTruthy refv then
          match refv with
          | .str refStr =>
              let resolved := resolveRef spec refStr
              if jsTruthy resolved then resolveSchemaF fuel spec resolved
              else some .undefined
          | _ => some .undefined
        else some schema
      else some .undefined

/-- C7: resolving an (object) schema node that carries no `$ref` field
returns that node itself unchanged, and resolution is idempotent: if
resolving a node terminates with result `r`, then resolving `r` again
(with any positive fuel) returns `r` unchanged. -/
theorem resolveSchema_identity_idempotent :
    (∀ fuel spec fields, jsField fields "$ref" = none →
        resolveSchemaF (fuel + 1) spec (.obj fields) = some (.obj fields)) ∧
    (∀ fuel spec s r, resolveSchemaF fuel spec s = some r →
        ∀ fuel2, resolveSchemaF (fuel2 + 1) spec r = some r) := by
  constructor
  · intro fuel spec fields h
    simp [resolveSchemaF, jsTruthy, jsAccess, h]
  · intro fuel
    induction fuel with
    | zero => intro spec s r h; simp [resolveSchemaF] at h
    | succ f ih =>
        intro spec s r h
        simp only [resolveSchemaF] at h
        by_cases hs : jsTruthy s = true
        · simp only [hs, if_true] at h
          by_cases href : jsTruthy (jsAccess s "$ref") = true
          · simp only [href, if_true] at h
            cases hv : jsAccess s "$ref" with
            | str refStr =>
                rw [hv] at h
                by_cases hres : jsTruthy (resolveRef spec refStr) = true
                · simp only [hres, if_true] at h
                  exact ih spec _ r h
                · simp only [Bool.not_eq_true] at hres
                  simp only [hres, Bool.false_eq_true, if_false,
                    Option.some.injEq] at h
                  intro fuel2
                  simp [resolveSchemaF, ← h, jsTruthy]
            | undefined => rw [hv] at href; simp [jsTruthy] at href
            | null => rw [hv] at href; simp [jsTruthy] at href
            | bool b =>
                rw [hv] at h
                simp only [Option.some.injEq] at h
                intro fuel2
                simp [resolveSchemaF, ← h, jsTruthy]
            | num n =>
                rw [hv] at h
                simp only [Option.some.injEq] at h
                intro fuel2
                simp [resolveSchemaF, ← h, jsTruthy]
            | arr l =>
                rw [hv] at h
                simp only [Option.some.injEq] at h
                intro fuel2
                simp [resolveSchemaF, ← h, jsTruthy]
            | obj l =>
                rw [hv] at h
                simp only [Option.some.injEq] at h
                intro fuel2
                simp [resolveSchemaF, ← h, jsTruthy]
          · simp only [Bool.not_eq_true] at href
            simp only [href, Bool.false_eq_true, if_false,
              Option.some.injEq] at h
            intro fuel2
            rw [← h]
            simp [resolveSchemaF, hs, href]
        · simp only [Bool.not_eq_true] at hs
          simp only [hs, Bool.false_eq_true, if_false, Option.some.injEq] at h
          intro fuel2
          simp [resolveSchemaF, ← h, jsTruthy]

/-- Witness for C7: a concrete reference-free schema node resolves to
itself, and resolving that result again yields the same node. -/
theorem resolveSchema_identity_idempotent_witness :
    resolveSchemaF 1 (.obj []) (.obj [("type", .str "string")])
        = some (.obj [("type", .str "string")]) ∧
    resolveSchemaF 1 (.obj []) (.obj [("type", .str "string")])
        = some (.obj [("type", .str "string")]) :=
  ⟨resolveSchema_identity_idempotent.1 0 (.obj []) [("type", .str "string")] (by decide),
   resolveSchema_identity_idempotent.2 1 (.obj []) (.obj [("type", .str "string")])
      (.obj [("type", .str "string")])
      (resolveSchema_identity_idempotent.1 0 (.obj []) [("type", .str "string")] (by decide)) 0⟩

/-! ### Example synthesis (`generateExampleFromSchema`, `openApiParser.ts`
lines 100-150) -/

/-- The JavaScript test `typeof x === "object"` for representable values
(arrays and `null` also have typeof "object"). -/
def jsTypeofObj : JsValue → Bool
  | .obj _ => true
  | .arr _ => true
  | .null => true
  | _ => false

/-- JavaScript property assignment `m[k] = v` on an object's field list:
an existing binding is overwritten in place, a new key is appended. -/
def recSet (m : List (String × JsValue)) (k : String) (v : JsValue) :
    List (String × JsValue) :=
  if m.any (fun p => p.1 == k) then
    m.map (fun p => if p.1 = k then (k, v) else p)
  else m ++ [(k, v)]

/-- `Object.assign(m, src)` restricted to the field list of the source:
each source binding is assigned into `m` in order. -/
def assignAll (m src : List (String × JsValue)) : List (String × JsValue) :=
  src.foldl (fun acc p => recSet acc p.1 p.2) m

/-- `generateExampleFromSchema(spec, schema)` with a fuel bound on the
recursion depth (`none` models the stack overflow a self-referential
schema graph would cause in JavaScript).  Mirrors the source: falsy
schema gives null; unresolved schema gives null; an `example` is
returned verbatim, else a `default`; otherwise the declared type drives
synthesis (string formats, first enum entry, zero, true, a singleton or
empty array by truthiness of the item example, an object built from the
properties, and the composition fallbacks oneOf / anyOf / allOf). -/
def genExampleF : Nat → JsValue → JsValue → Option JsValue
  | 0, _, _ => none
  | fuel + 1, spec, schema =>
      if jsTruthy schema then
        match resolveSchemaF fuel spec schema with
        | none => none
        | some r =>
          if jsTruthy r then
            if jsAccess r "example" ≠ .undefined then some (jsAccess r "example")
            else if jsAccess r "default" ≠ .undefined then some (jsAccess r "default")
            else match jsAccess r "type" with
              | .str "string" =>
                  if jsTruthy (jsAccess r "enum") then
                    some (jsAccess (jsAccess r "enum") "0")
                  else if jsAccess r "format" = .str "date" then
                    some (.str "2024-01-15")
                  else if jsAccess r "format" = .str "date-time" then
                    some (.str "2024-01-15T10:30:00Z")
                  else if jsAccess r "format" = .str "email" then
                    some (.str "user@example.com")
                  else if jsAccess r "format" = .str "uuid" then
                    some (.str "550e8400-e29b-41d4-a716-446655440000")
                  else if jsAccess r "format" = .str "uri" then
                    some (.str "https://example.com")
                  else some (.str "string")
              | .str "number" =>
                  if jsTruthy (jsAccess r "enum") then
                    some (jsAccess (jsAccess r "enum") "0")
                  else some (.num 0)
              | .str "integer" =>
                  if jsTruthy (jsAccess r "enum") then
                    some (jsAccess (jsAccess r "enum") "0")
                  else some (.num 0)
              | .str "boolean" => some (.bool true)
              | .str "array" =>
                  match genExampleF fuel spec (jsAccess r "items") with
                  | none => none
                  | some it => some (if jsTruthy it then .arr [it] else .arr [])
              | .str "object" =>
                  if jsTruthy (jsAccess r "properties") then
                    match (jsEntries (jsAccess r "properties")).mapM
                        (fun p => (genExampleF fuel spec p.2).map (fun v => (p.1, v))) with
                    | none => none
                    | some pairs => some (.obj (assignAll [] pairs))
                  else some (.obj [])
              | _ =>
                  if jsTruthy (jsAccess (jsAccess r "oneOf") "0") then
                    genExampleF fuel spec (jsAccess (jsAccess r "oneOf") "0")
                  else if jsTruthy (jsAccess (jsAccess r "anyOf") "0") then
                    genExampleF fuel spec (jsAccess (jsAccess r "anyOf") "0")
                  else if jsTruthy (jsAccess r "allOf") then
                    match jsAccess r "allOf" with
                    | .arr subs =>
                        match subs.mapM (genExampleF fuel spec) with
                        | none => none
                        | some exs =>
                            some (.obj (exs.foldl
                              (fun acc ex =>
                                if jsTruthy ex && jsTypeofObj ex then
                                  assignAll acc (jsEntries ex)
                                else acc) []))
                    | _ => some (.obj [])
                  else some .null
          else some .null
      else some .null

/-- If resolution terminates with a truthy result, the input schema was
itself truthy (a falsy input resolves to `undefined`). -/
theorem resolveSchemaF_truthy_src (fuel : Nat) (spec s r : JsValue)
    (hres : resolveSchemaF fuel spec s = some r)
    (htr : jsTruthy r = true) : jsTruthy s = true := by
  cases fuel with
  | zero => simp [resolveSchemaF] at hres
  | succ f =>
      by_cases hs : jsTruthy s = true
      · exact hs
      · simp only [Bool.not_eq_true] at hs
        simp only [resolveSchemaF, hs, Bool.false_eq_true, if_false,
          Option.some.injEq] at hres
        rw [← hres] at htr
        simp [jsTruthy] at htr

/-- C6: for a schema node whose resolution terminates with a truthy
resolved node, synthesis returns the resolved node's `example` verbatim
whenever one is present (no constraint on the declared type), and
otherwise returns the `default` whenever one is present. -/
theorem genExample_example_then_default (fuel : Nat) (spec s r : JsValue)
    (hres : resolveSchemaF fuel spec s = some r)
    (htr : jsTruthy r = true) :
    (jsAccess r "example" ≠ .undefined →
        genExampleF (fuel + 1) spec s = some (jsAccess r "example")) ∧
    (jsAccess r "example" = .undefined → jsAccess r "default" ≠ .undefined →
        genExampleF (fuel + 1) spec s = some (jsAccess r "default")) := by
  have hs : jsTruthy s = true := resolveSchemaF_truthy_src fuel spec s r hres htr
  constructor
  · intro hex
    simp [genExampleF, hs, hres, htr, hex]
  · intro hex hdf
    simp [genExampleF, hs, hres, htr, hex, hdf]

/-- Witness for C6: an integer-typed node with example 7 synthesizes to
7, and an integer-typed node with only a default 9 synthesizes to 9. -/
theorem genExample_example_then_default_witness :
    genExampleF 2 (.obj [])
        (.obj [("type", .str "integer"), ("example", .num 7)]) = some (.num 7) ∧
    genExampleF 2 (.obj [])
        (.obj [("type", .str "integer"), ("default", .num 9)]) = some (.num 9) :=
  ⟨(genExample_example_then_default 1 (.obj [])
      (.obj [("type", .str "integer"), ("example", .num 7)])
      (.obj [("type", .str "integer"), ("example", .num 7)])
      (by decide) (by decide)).1 (by decide),
   (genExample_example_then_default 1 (.obj [])
      (.obj [("type", .str "integer"), ("default", .num 9)])
      (.obj [("type", .str "integer"), ("default", .num 9)])
      (by decide) (by decide)).2 (by decide) (by decide)⟩

/-- C3 counterexample: on the array schema with integer items, synthesis
returns the EMPTY sequence, not the one-element sequence [0] the claim
requires — the recursive item example 0 is non-null but falsy, and the
source wraps by truthiness. -/
theorem genExample_array_integer_counterexample :
    genExampleF 3 (.obj [])
        (.obj [("type", .str "array"), ("items", .obj [("type", .str "integer")])])
      = some (.arr []) ∧
    (JsValue.arr []) ≠ (JsValue.arr [.num 0]) := by
  exact ⟨by decide, by decide⟩

/-- C3 (amended): for an array-typed resolved node without example or
default, synthesis recursively synthesizes from the items schema and
wraps the result as a one-element sequence exactly when that result is
TRUTHY (non-null, non-zero, non-empty, non-false); a falsy recursive
result — including the integer default 0 — gives the empty sequence. -/
theorem genExample_array_wraps_truthy (fuel : Nat) (spec s r : JsValue)
    (hres : resolveSchemaF fuel spec s = some r)
    (htr : jsTruthy r = true)
    (hex : jsAccess r "example" = .undefined)
    (hdf : jsAccess r "default" = .undefined)
    (hty : jsAccess r "type" = .str "array") :
    genExampleF (fuel + 1) spec s =
      (genExampleF fuel spec (jsAccess r "items")).map
        (fun it => if jsTruthy it then .arr [it] else .arr []) := by
  have hs : jsTruthy s = true := resolveSchemaF_truthy_src fuel spec s r hres htr
  simp only [genExampleF, hs, if_true, hres, htr, hex, hdf, hty]
  simp only [ne_eq, not_true_eq_false, if_false]
  cases h : genExampleF fuel spec (jsAccess r "items") with
  | none => simp
  | some it => simp

/-- Witness for C3: the string-items array schema instantiates the
amended law, and evaluates to the one-element sequence ["string"]. -/
theorem genExample_array_wraps_truthy_witness :
    genExampleF 3 (.obj [])
        (.obj [("type", .str "array"), ("items", .obj [("type", .str "string")])])
      = (genExampleF 2 (.obj [])
          (jsAccess (.obj [("type", .str "array"),
            ("items", .obj [("type", .str "string")])]) "items")).map
          (fun it => if jsTruthy it then .arr [it] else .arr []) ∧
    genExampleF 3 (.obj [])
        (.obj [("type", .str "array"), ("items", .obj [("type", .str "string")])])
      = some (.arr [.str "string"]) :=
  ⟨genExample_array_wraps_truthy 2 (.obj [])
      (.obj [("type", .str "array"), ("items", .obj [("type", .str "string")])])
      (.obj [("type", .str "array"), ("items", .obj [("type", .str "string")])])
      (by decide) (by decide) (by decide) (by decide) (by decide),
   by decide⟩

/-! ### Spec loading (`parseOpenAPISpec`, `openApiParser.ts` lines 6-24) -/

/-- The failures the loader's validation stage can produce: the
deliberate ParseError thrown for missing required fields, or a
JavaScript TypeError escaping from an unguarded property access. -/
inductive SpecError where
  | parseError (msg : String)
  | typeError
deriving DecidableEq, Repr

/-- The required-fields validation stage of `parseOpenAPISpec` (lines
19-23), applied to the value produced by the JSON or YAML parse stage
(for the input text "null", strict JSON parsing succeeds and yields the
null value).  The source performs the PLAIN property access
`spec.openapi`, which in JavaScript throws a TypeError when the parsed
value is null or undefined; on any other value, a falsy `openapi` or
`paths` member raises the ParseError, and otherwise the value is
returned as the loaded specification. -/
def validateSpec (v : JsValue) : Except SpecError JsValue :=
  match v with
  | .null => .error .typeError
  | .undefined => .error .typeError
  | _ =>
      if !(jsTruthy (jsAccess v "openapi")) || !(jsTruthy (jsAccess v "paths")) then
        .error (.parseError "Invalid OpenAPI spec. Missing required fields.")
      else .ok v

/-- C5 (code bug): the input text "null" parses to the null value, on
which validation throws a TypeError (the unguarded `spec.openapi`
access), not the ParseError for missing required fields the claim
states; a bare scalar such as 5 does produce that ParseError, and a
value carrying both markers is returned unchanged. -/
theorem validateSpec_null_typeError :
    validateSpec .null = .error .typeError ∧
    (Except.error SpecError.typeError : Except SpecError JsValue)
      ≠ .error (.parseError "Invalid OpenAPI spec. Missing required fields.") ∧
    validateSpec (.num 5)
      = .error (.parseError "Invalid OpenAPI spec. Missing required fields.") ∧
    validateSpec (.obj [("openapi", .str "3.0.3"), ("paths", .obj [])])
      = .ok (.obj [("openapi", .str "3.0.3"), ("paths", .obj [])]) :=
  ⟨rfl, by simp, rfl, rfl⟩

/-! ### Endpoint extraction (`extractEndpoints`, `openApiParser.ts`
lines 26-45) -/

/-- The seven recognized HTTP verbs in the source's canonical order. -/
def HTTP_METHODS : List String :=
  ["get", "post", "put", "patch", "delete", "options", "head"]

/-- The id derivation: every character outside [A-Za-z0-9] is replaced
by a hyphen (the regex replace on line 34). -/
def sanitizeId (s : String) : String :=
  String.mk (s.data.map (fun c => if c.isAlphanum then c else '-'))

/-- One extracted endpoint: derived id, path template, verb, the
operation node, and the path-item-level parameters node. -/
structure ParsedEndpoint where
  id : String
  path : String
  method : String
  operation : JsValue
  pathParameters : JsValue
deriving DecidableEq, Repr

/-- `extractEndpoints(spec)`: walk the paths map in declaration order;
for each path item take the seven verbs in canonical order and emit an
endpoint for every truthy operation. -/
def extractEndpoints (spec : JsValue) : List ParsedEndpoint :=
  ((jsEntries (jsAccess spec "paths")).map (fun pe =>
    HTTP_METHODS.filterMap (fun method =>
      if jsTruthy (jsAccess pe.2 method) then
        some { id := sanitizeId (method ++ "-" ++ pe.1), path := pe.1,
               method := method, operation := jsAccess pe.2 method,
               pathParameters := jsAccess pe.2 "parameters" }
      else none))).flatten

/-- C2 counterexample: over paths /a (get, post) and /b (get) the three
ids are "get--a", "post--a", "get--b" — the literal hyphen of the
verb-path join survives and the path's leading slash becomes a second
hyphen — not the claimed "get-a", "post-a", "get-b". -/
theorem extractEndpoints_id_counterexample :
    (extractEndpoints (.obj [("paths", .obj
        [("/a", .obj [("get", .obj [("summary", .str "ga")]),
                      ("post", .obj [("summary", .str "pa")])]),
         ("/b", .obj [("get", .obj [("summary", .str "gb")])])])])).map
      (fun e => e.id) = ["get--a", "post--a", "get--b"] ∧
    ("get--a" : String) ≠ "get-a" :=
  ⟨by decide, by decide⟩

/-- C2 (amended): ids follow the general rule verb, literal hyphen,
path, with every character outside [A-Za-z0-9] replaced by a hyphen —
which for paths starting with "/" yields a DOUBLE hyphen, so the three
ids are "get--a", "post--a", "get--b"; the three entries appear in path
declaration order then canonical verb order, carrying the verb, path,
operation and path-item parameters. -/
theorem extractEndpoints_ids_order :
    (∀ spec ep, ep ∈ extractEndpoints spec →
        ep.id = sanitizeId (ep.method ++ "-" ++ ep.path) ∧
        ep.method ∈ HTTP_METHODS) ∧
    extractEndpoints (.obj [("paths", .obj
        [("/a", .obj [("get", .obj [("summary", .str "ga")]),
                      ("post", .obj [("summary", .str "pa")])]),
         ("/b", .obj [("get", .obj [("summary", .str "gb")])])])])
      = [⟨"get--a", "/a", "get", .obj [("summary", .str "ga")], .undefined⟩,
         ⟨"post--a", "/a", "post", .obj [("summary", .str "pa")], .undefined⟩,
         ⟨"get--b", "/b", "get", .obj [("summary", .str "gb")], .undefined⟩] := by
  constructor
  · intro spec ep hmem
    simp only [extractEndpoints, List.mem_flatten, List.mem_map] at hmem
    obtain ⟨le, ⟨pe, hpe, rfl⟩, hepl⟩ := hmem
    simp only [List.mem_filterMap] at hepl
    obtain ⟨method, hm, hsome⟩ := hepl
    by_cases ht : jsTruthy (jsAccess pe.2 method) = true
    · simp only [ht, if_true, Option.some.injEq] at hsome
      subst hsome
      exact ⟨rfl, hm⟩
    · simp only [Bool.not_eq_true] at ht
      simp [ht] at hsome
  · decide

/-- Witness for C2: the general id law applied to the first extracted
endpoint of the /a, /b specification. -/
theorem extractEndpoints_ids_order_witness :
    ("get--a" : String) = sanitizeId ("get" ++ "-" ++ "/a") ∧
    ("get" : String) ∈ HTTP_METHODS :=
  extractEndpoints_ids_order.1
    (.obj [("paths", .obj
        [("/a", .obj [("get", .obj [("summary", .str "ga")]),
                      ("post", .obj [("summary", .str "pa")])]),
         ("/b", .obj [("get", .obj [("summary", .str "gb")])])])])
    ⟨"get--a", "/a", "get", .obj [("summary", .str "ga")], .undefined⟩
    (by decide)

/-! ### Tag grouping (`groupEndpointsByTag`, `openApiParser.ts`
lines 47-73) -/

/-- The tag list an endpoint is scanned under:
`endpoint.operation.tags || ["Untagged"]` (note JavaScript truthiness:
an explicitly empty tags array is truthy and stays empty). -/
def opTagsVal (op : JsValue) : JsValue :=
  if jsTruthy (jsAccess op "tags") then jsAccess op "tags" else .arr [.str "Untagged"]

/-- The elements iterated by `tags.forEach` (a truthy non-array would
throw in JavaScript; modelled as iterating nothing — no claim touches
that spot). -/
def opTagsList (op : JsValue) : List JsValue :=
  match opTagsVal op with
  | .arr l => l
  | _ => []

/-- JavaScript `Map.set`: overwrite an existing key in place, append a
new one (insertion order preserved). -/
def jsMapSet (m : List (JsValue × JsValue)) (k v : JsValue) :
    List (JsValue × JsValue) :=
  if m.any (fun p => p.1 == k) then
    m.map (fun p => if p.1 = k then (k, v) else p)
  else m ++ [(k, v)]

/-- JavaScript `Map.get`: `none` models the `undefined` result for a
missing key. -/
def jsLookup : List (JsValue × JsValue) → JsValue → Option JsValue
  | [], _ => none
  | p :: rest, k => if p.1 = k then some p.2 else jsLookup rest k

/-- The `tagDescriptions` map (lines 52-54): for each entry of the
specification's top-level tag list, map its name to its description, or
to the empty string when the description is falsy
(`tag.description || ""`). -/
def tagDescs (spec : JsValue) : List (JsValue × JsValue) :=
  (match jsAccess spec "tags" with
   | .arr l => l
   | _ => []).foldl
    (fun m t => jsMapSet m (jsAccess t "name")
      (if jsTruthy (jsAccess t "description") then jsAccess t "description"
       else .str ""))
    []

/-- One output bucket: tag name, the description looked up from the
top-level tag list (`none` models `undefined` for a name the list does
not mention), and the endpoints carrying the tag in scan order. -/
structure ParsedTag where
  name : JsValue
  description : Option JsValue
  endpoints : List ParsedEndpoint
deriving DecidableEq, Repr

/-- One `tags.forEach` step (lines 60-69): create the bucket on first
sight with the description from `tagDescriptions`, then push the
endpoint onto the bucket. -/
def addEpTag (spec : JsValue) (ep : ParsedEndpoint) (m : List ParsedTag)
    (k : JsValue) : List ParsedTag :=
  if m.any (fun t => t.name == k) then
    m.map (fun t => if t.name = k then
      { t with endpoints := t.endpoints ++ [ep] } else t)
  else m ++ [{ name := k, description := jsLookup (tagDescs spec) k,
               endpoints := [ep] }]

/-- `groupEndpointsByTag(spec, endpoints)`: scan endpoints in order,
and each endpoint's tag names in order, folding the map-building step;
the output is the buckets in insertion order
(`Array.from(tagMap.values())`). -/
def groupEndpointsByTag (spec : JsValue) (endpoints : List ParsedEndpoint) :
    List ParsedTag :=
  endpoints.foldl
    (fun m ep => (opTagsList ep.operation).foldl (addEpTag spec ep) m) []

/-- The flattened (tag name, endpoint) occurrence list in scan order. -/
def tagOcc (endpoints : List ParsedEndpoint) :
    List (JsValue × ParsedEndpoint) :=
  (endpoints.map (fun ep =>
    (opTagsList ep.operation).map (fun k => (k, ep)))).flatten

/-- First-occurrence deduplication of a list of tag names. -/
def dedupFirst (l : List JsValue) : List JsValue :=
  l.foldl (fun acc k => if acc.contains k then acc else acc ++ [k]) []

/-- Declarative description of the grouping result: one bucket per
first-occurrence tag name, holding the looked-up description and the
occurrence endpoints for that name in order. -/
def buildTags (spec : JsValue) (occ : List (JsValue × ParsedEndpoint)) :
    List ParsedTag :=
  (dedupFirst (occ.map (fun p => p.1))).map
    (fun k => { name := k, description := jsLookup (tagDescs spec) k,
                endpoints := (occ.filter (fun p => p.1 == k)).map (fun p => p.2) })

/-- Membership in the accumulator-threaded deduplication fold. -/
theorem dedupFirst_fold_mem (l : List JsValue) :
    ∀ (acc : List JsValue) (x : JsValue),
      x ∈ l.foldl (fun acc k => if acc.contains k then acc else acc ++ [k]) acc
        ↔ x ∈ acc ∨ x ∈ l := by
  induction l with
  | nil => intro acc x; simp
  | cons a l ih =>
      intro acc x
      simp only [List.foldl_cons]
      rw [ih]
      by_cases ha : acc.contains a = true
      · simp only [ha, if_true]
        have ha2 : a ∈ acc := List.mem_of_elem_eq_true ha
        constructor
        · rintro (h | h)
          · exact Or.inl h
          · exact Or.inr (List.mem_cons_of_mem a h)
        · rintro (h | h)
          · exact Or.inl h
          · rcases List.mem_cons.mp h with rfl | h
            · exact Or.inl ha2
            · exact Or.inr h
      · simp only [Bool.not_eq_true] at ha
        simp only [ha, Bool.false_eq_true, if_false, List.mem_append,
          List.mem_singleton, List.mem_cons]
        tauto

/-- A name occurs in the deduplicated list exactly when it occurs in the
input. -/
theorem mem_dedupFirst (l : List JsValue) (x : JsValue) :
    x ∈ dedupFirst l ↔ x ∈ l := by
  unfold dedupFirst
  rw [dedupFirst_fold_mem]
  simp

/-- Appending one name to the input of the deduplication. -/
theorem dedupFirst_append_singleton (l : List JsValue) (k : JsValue) :
    dedupFirst (l ++ [k])
      = if (dedupFirst l).contains k then dedupFirst l
        else dedupFirst l ++ [k] := by
  unfold dedupFirst
  rw [List.foldl_append]
  rfl

/-- The nested endpoint/tag scan equals a single fold over the flattened
occurrence list. -/
theorem groupFold_eq_occFold (spec : JsValue) :
    ∀ (eps : List ParsedEndpoint) (m : List ParsedTag),
      eps.foldl (fun m ep =>
          (opTagsList ep.operation).foldl (addEpTag spec ep) m) m
        = (tagOcc eps).foldl (fun m p => addEpTag spec p.2 m p.1) m := by
  intro eps
  induction eps with
  | nil => intro m; rfl
  | cons ep rest ih =>
      intro m
      simp only [List.foldl_cons, tagOcc, List.map_cons, List.flatten_cons,
        List.foldl_append]
      rw [ih]
      congr 1
      rw [List.foldl_map]

/-- The occurrence fold builds exactly the declarative bucket list. -/
theorem occFold_eq_buildTags (spec : JsValue)
    (occ : List (JsValue × ParsedEndpoint)) :
    occ.foldl (fun m p => addEpTag spec p.2 m p.1) [] = buildTags spec occ := by
  induction occ using List.reverseRecOn with
  | nil => rfl
  | append_singleton occ x ih =>
      rw [List.foldl_append, List.foldl_cons, List.foldl_nil, ih]
      obtain ⟨k, ep⟩ := x
      by_cases hk : k ∈ occ.map (fun p => p.1)
      · -- the tag name was seen before: in-place endpoint append
        have hmem : k ∈ dedupFirst (occ.map (fun p => p.1)) :=
          (mem_dedupFirst _ _).mpr hk
        have hany : (buildTags spec occ).any (fun t => t.name == k) = true := by
          refine List.any_eq_true.mpr ?_
          refine ⟨_, List.mem_map_of_mem _ hmem, ?_⟩
          simp
        rw [addEpTag, if_pos hany]
        unfold buildTags
        rw [List.map_map]
        have hdedup : dedupFirst ((occ ++ [(k, ep)]).map (fun p => p.1))
            = dedupFirst (occ.map (fun p => p.1)) := by
          rw [List.map_append]
          simp only [List.map_cons, List.map_nil]
          rw [dedupFirst_append_singleton,
            if_pos (List.elem_eq_true_of_mem hmem)]
        rw [hdedup]
        apply List.map_congr_left
        intro k2 hk2
        by_cases hkk : k2 = k
        · subst hkk
          simp only [Function.comp_apply, if_pos rfl]
          rw [List.filter_append]
          simp only [List.filter_cons, List.filter_nil]
          simp
        · simp only [Function.comp_apply, if_neg hkk]
          congr 1
          rw [List.filter_append]
          simp only [List.filter_cons, List.filter_nil]
          rw [if_neg (by simp; exact fun h => hkk h.symm)]
          simp
      · -- a fresh tag name: a new bucket is appended
        have hnotmem : k ∉ dedupFirst (occ.map (fun p => p.1)) :=
          fun h => hk ((mem_dedupFirst _ _).mp h)
        have hany : (buildTags spec occ).any (fun t => t.name == k) = false := by
          rw [Bool.eq_false_iff]
          intro hx
          obtain ⟨t, ht, htk⟩ := List.any_eq_true.mp hx
          obtain ⟨k2, hk2, rfl⟩ := List.mem_map.mp ht
          simp only [beq_iff_eq] at htk
          exact hnotmem (htk ▸ hk2)
        rw [addEpTag, hany]
        simp only [Bool.false_eq_true, if_false]
        unfold buildTags
        have hdedup : dedupFirst ((occ ++ [(k, ep)]).map (fun p => p.1))
            = dedupFirst (occ.map (fun p => p.1)) ++ [k] := by
          rw [List.map_append]
          simp only [List.map_cons, List.map_nil]
          rw [dedupFirst_append_singleton, if_neg]
          intro hc
          exact hnotmem (List.mem_of_elem_eq_true hc)
        rw [hdedup, List.map_append]
        congr 1
        · apply List.map_congr_left
          intro k2 hk2
          have hkk : k2 ≠ k := by
            intro h
            exact hnotmem (h ▸ hk2)
          congr 1
          rw [List.filter_append]
          simp only [List.filter_cons, List.filter_nil]
          rw [if_neg (by simp; exact fun h => hkk h.symm)]
          simp
        · simp only [List.map_cons, List.map_nil]
          have hfilter : occ.filter (fun p => p.1 == k) = [] := by
            rw [List.filter_eq_nil_iff]
            intro p hp
            simp only [beq_iff_eq]
            intro h
            exact hk (List.mem_map.mpr ⟨p, hp, h⟩)
          rw [List.filter_append, hfilter]
          simp only [List.filter_cons, List.filter_nil, List.nil_append]
          simp

/-- The grouping function equals its declarative description. -/
theorem groupEndpointsByTag_eq_buildTags (spec : JsValue)
    (eps : List ParsedEndpoint) :
    groupEndpointsByTag spec eps = buildTags spec (tagOcc eps) := by
  unfold groupEndpointsByTag
  rw [groupFold_eq_occFold, occFold_eq_buildTags]

/-- The tag-name projection of the occurrence list is the flattened tag
scan. -/
theorem tagOcc_map_fst (eps : List ParsedEndpoint) :
    (tagOcc eps).map (fun p => p.1)
      = (eps.map (fun ep => opTagsList ep.operation)).flatten := by
  induction eps with
  | nil => rfl
  | cons ep rest ih =>
      simp only [tagOcc, List.map_cons, List.flatten_cons, List.map_append,
        List.map_map] at *
      rw [ih]
      congr 1
      exact List.map_id _

/-- C4 counterexample: for a tag name the specification's top-level tag
list does not mention, the produced bucket's description is ABSENT
(undefined), not the empty string the claim states. -/
theorem groupEndpointsByTag_description_counterexample :
    groupEndpointsByTag
        (.obj [("tags", .arr
          [.obj [("name", .str "Pets"), ("description", .str "d")]])])
        [⟨"get--x", "/x", "get", .obj [("tags", .arr [.str "X"])], .undefined⟩]
      = [⟨.str "X", none,
          [⟨"get--x", "/x", "get", .obj [("tags", .arr [.str "X"])], .undefined⟩]⟩] ∧
    (none : Option JsValue) ≠ some (.str "") :=
  ⟨by decide, by decide⟩

/-- C4 (amended): every endpoint appears under each of its scanned tag
names, an endpoint whose operation declares no tags lands under the
sentinel "Untagged", every bucket's description is the tagDescriptions
lookup of its name — present (empty string when the entry's own
description is falsy) when the top-level tag list mentions the name and
ABSENT (undefined, not the empty string) otherwise — and buckets appear
in first-encounter order of the tag names scanned over the endpoints in
extraction order; the concrete evaluation shows an operation tagged
["X","Y"] appearing exactly once in each of its two buckets. -/
theorem groupEndpointsByTag_grouping :
    (∀ spec eps ep k, ep ∈ eps → k ∈ opTagsList ep.operation →
        ∃ t ∈ groupEndpointsByTag spec eps, t.name = k ∧ ep ∈ t.endpoints) ∧
    (∀ spec eps ep, ep ∈ eps →
        jsTruthy (jsAccess ep.operation "tags") = false →
        ∃ t ∈ groupEndpointsByTag spec eps,
          t.name = .str "Untagged" ∧ ep ∈ t.endpoints) ∧
    (∀ spec eps t, t ∈ groupEndpointsByTag spec eps →
        t.description = jsLookup (tagDescs spec) t.name) ∧
    (∀ spec eps, (groupEndpointsByTag spec eps).map (fun t => t.name)
        = dedupFirst ((eps.map (fun ep => opTagsList ep.operation)).flatten)) ∧
    groupEndpointsByTag
        (.obj [("tags", .arr
          [.obj [("name", .str "X"), ("description", .str "dx")]])])
        [⟨"u", "/u", "get", .obj [], .undefined⟩,
         ⟨"x", "/x", "get", .obj [("tags", .arr [.str "X", .str "Y"])], .undefined⟩]
      = [⟨.str "Untagged", none, [⟨"u", "/u", "get", .obj [], .undefined⟩]⟩,
         ⟨.str "X", some (.str "dx"),
          [⟨"x", "/x", "get", .obj [("tags", .arr [.str "X", .str "Y"])], .undefined⟩]⟩,
         ⟨.str "Y", none,
          [⟨"x", "/x", "get", .obj [("tags", .arr [.str "X", .str "Y"])], .undefined⟩]⟩] := by
  have main : ∀ spec eps ep k, ep ∈ eps → k ∈ opTagsList ep.operation →
      ∃ t ∈ groupEndpointsByTag spec eps, t.name = k ∧ ep ∈ t.endpoints := by
    intro spec eps ep k hep hk
    rw [groupEndpointsByTag_eq_buildTags]
    have hocc : (k, ep) ∈ tagOcc eps := by
      refine List.mem_flatten.mpr ⟨_, List.mem_map_of_mem _ hep, ?_⟩
      exact List.mem_map.mpr ⟨k, hk, rfl⟩
    have hname : k ∈ dedupFirst ((tagOcc eps).map (fun p => p.1)) :=
      (mem_dedupFirst _ _).mpr (List.mem_map.mpr ⟨(k, ep), hocc, rfl⟩)
    refine ⟨_, List.mem_map_of_mem _ hname, rfl, ?_⟩
    exact List.mem_map.mpr ⟨(k, ep), List.mem_filter.mpr ⟨hocc, by simp⟩, rfl⟩
  refine ⟨main, ?_, ?_, ?_, by decide⟩
  · intro spec eps ep hep hfalsy
    have huntagged : opTagsList ep.operation = [.str "Untagged"] := by
      simp [opTagsList, opTagsVal, hfalsy]
    exact main spec eps ep (.str "Untagged") hep (by rw [huntagged]; simp)
  · intro spec eps t ht
    rw [groupEndpointsByTag_eq_buildTags] at ht
    obtain ⟨k2, hk2, rfl⟩ := List.mem_map.mp ht
    rfl
  · intro spec eps
    rw [groupEndpointsByTag_eq_buildTags]
    unfold buildTags
    rw [List.map_map, ← tagOcc_map_fst]
    exact List.map_id _

/-- Witness for C4: the grouping law applied to a concrete endpoint
tagged "X": its bucket exists, is named "X", and contains it. -/
theorem groupEndpointsByTag_grouping_witness :
    ∃ t ∈ groupEndpointsByTag
        (.obj [("tags", .arr
          [.obj [("name", .str "X"), ("description", .str "dx")]])])
        [⟨"x", "/x", "get", .obj [("tags", .arr [.str "X"])], .undefined⟩],
      t.name = .str "X" ∧
      (⟨"x", "/x", "get", .obj [("tags", .arr [.str "X"])], .undefined⟩ : ParsedEndpoint)
        ∈ t.endpoints :=
  groupEndpointsByTag_grouping.1
    (.obj [("tags", .arr
      [.obj [("name", .str "X"), ("description", .str "dx")]])])
    [⟨"x", "/x", "get", .obj [("tags", .arr [.str "X"])], .undefined⟩]
    ⟨"x", "/x", "get", .obj [("tags", .arr [.str "X"])], .undefined⟩
    (.str "X") (by decide) (by decide)

/-! ### Code generation (`codeGenerator.ts`) -/

/-- A run of spaces for pretty-printed JSON indentation. -/
def spaces (n : Nat) : String := String.mk (List.replicate n ' ')

/-- One upper-case hexadecimal digit character. -/
def hexDigit (n : Nat) : Char :=
  if n < 10 then Char.ofNat (48 + n) else Char.ofNat (55 + n)

/-- One lower-case hexadecimal digit character. -/
def hexDigitLower (n : Nat) : Char :=
  if n < 10 then Char.ofNat (48 + n) else Char.ofNat (87 + n)

/-- The UTF-8 byte sequence of a character (used by
`encodeURIComponent`). -/
def utf8Bytes (c : Char) : List Nat :=
  let n := c.toNat
  if n < 0x80 then [n]
  else if n < 0x800 then [0xC0 + n / 0x40, 0x80 + n % 0x40]
  else if n < 0x10000 then
    [0xE0 + n / 0x1000, 0x80 + (n / 0x40) % 0x40, 0x80 + n % 0x40]
  else
    [0xF0 + n / 0x40000, 0x80 + (n / 0x1000) % 0x40,
     0x80 + (n / 0x40) % 0x40, 0x80 + n % 0x40]

/-- The characters `encodeURIComponent` leaves unescaped: ASCII letters
and digits and - _ . ! ~ * ( ) and the apostrophe (codepoint 39). -/
def uriUnreserved (c : Char) : Bool :=
  c.isAlphanum || c = '-' || c = '_' || c = '.' || c = '!' || c = '~' ||
    c = '*' || c = '(' || c = ')' || c = Char.ofNat 39

/-- JavaScript `encodeURIComponent`: unreserved characters pass through,
everything else is percent-encoded byte-wise in upper-case hex. -/
def encodeURIComponent (s : String) : String :=
  String.mk ((s.data.map (fun c =>
    if uriUnreserved c then [c]
    else ((utf8Bytes c).map
      (fun b => ['%', hexDigit (b / 16), hexDigit (b % 16)])).flatten)).flatten)

/-- JSON string escaping (quote, backslash, and control characters). -/
def jsonEscapeChar (c : Char) : List Char :=
  if c = Char.ofNat 34 then [Char.ofNat 92, Char.ofNat 34]
  else if c = Char.ofNat 92 then [Char.ofNat 92, Char.ofNat 92]
  else if c = Char.ofNat 8 then [Char.ofNat 92, 'b']
  else if c = Char.ofNat 12 then [Char.ofNat 92, 'f']
  else if c = Char.ofNat 10 then [Char.ofNat 92, 'n']
  else if c = Char.ofNat 13 then [Char.ofNat 92, 'r']
  else if c = Char.ofNat 9 then [Char.ofNat 92, 't']
  else if c.toNat < 32 then
    [Char.ofNat 92, 'u', '0', '0',
     hexDigitLower (c.toNat / 16), hexDigitLower (c.toNat % 16)]
  else [c]

/-- A JSON string literal. -/
def jsonQuote (s : String) : String :=
  String.mk (Char.ofNat 34 :: (s.data.map jsonEscapeChar).flatten ++ [Char.ofNat 34])

mutual

/-- `JSON.stringify(v, null, indent)` at a given nesting level:
primitives print compactly, non-empty arrays and objects spread over
indented lines; object members whose value is `undefined` are omitted
(`undefined` itself only ever reaches this printer as an array element,
where JSON.stringify prints null). -/
def jsonStringify (indent level : Nat) : JsValue → String
  | .undefined => "null"
  | .null => "null"
  | .bool b => if b then "true" else "false"
  | .num n => toString n
  | .str s => jsonQuote s
  | .arr [] => "[]"
  | .arr (e :: es) =>
      "[\n" ++
        String.intercalate ",\n" (jsonStringifyElems indent (level + 1) (e :: es)) ++
        "\n" ++ spaces (indent * level) ++ "]"
  | .obj fields =>
      let pieces := jsonStringifyMembers indent (level + 1) fields
      if pieces.isEmpty then "\x7b\x7d"
      else
        "\x7b\n" ++ String.intercalate ",\n" pieces ++
          "\n" ++ spaces (indent * level) ++ "\x7d"

/-- Rendered, indented array elements. -/
def jsonStringifyElems (indent level : Nat) : List JsValue → List String
  | [] => []
  | e :: es =>
      (spaces (indent * level) ++ jsonStringify indent level e)
        :: jsonStringifyElems indent level es

/-- Rendered, indented object members; members with `undefined` values
are skipped as JSON.stringify does. -/
def jsonStringifyMembers (indent level : Nat) :
    List (String × JsValue) → List String
  | [] => []
  | (k, v) :: rest =>
      if v = .undefined then jsonStringifyMembers indent level rest
      else
        (spaces (indent * level) ++ jsonQuote k ++ ": " ++
            jsonStringify indent level v)
          :: jsonStringifyMembers indent level rest

end

/-- Replace the FIRST occurrence of a pattern in a character list
(JavaScript `String.prototype.replace` with a string pattern). -/
def replaceFirstChars (pat rep : List Char) : List Char → List Char
  | [] => []
  | c :: rest =>
      if strStartsWithChars (c :: rest) pat then
        rep ++ (c :: rest).drop pat.length
      else c :: replaceFirstChars pat rep rest

/-- First-occurrence string replacement. -/
def strReplaceFirst (s pat rep : String) : String :=
  String.mk (replaceFirstChars pat.data rep.data s.data)

/-- The element list of a spread `[...(x || [])]`: a falsy or missing
value contributes nothing; a truthy non-array would throw in JavaScript
(modelled as empty — no claim touches that spot). -/
def jsArrElems : JsValue → List JsValue
  | .arr l => l
  | _ => []

/-- The caller-supplied generator options: base URL, extra headers, and
an optional bearer token (absent models the `undefined` field). -/
structure GenOptions where
  baseUrl : String
  headers : List (String × String)
  authToken : Option String
deriving DecidableEq, Repr

/-- Record update `m[k] = v` for the string-valued header record: an
existing key keeps its position, a new key is appended. -/
def recUpdate (m : List (String × String)) (k v : String) :
    List (String × String) :=
  if m.any (fun p => p.1 == k) then
    m.map (fun p => if p.1 = k then (k, v) else p)
  else m ++ [(k, v)]

/-- The shared header computation (every generator): a JSON content
type, the caller's headers spread over it, and a bearer authorization
header when the caller's token is truthy (present and non-empty). -/
def buildHeaders (options : GenOptions) : List (String × String) :=
  let base := options.headers.foldl (fun m p => recUpdate m p.1 p.2)
    [("Content-Type", "application/json")]
  match options.authToken with
  | some t => if t = "" then base else recUpdate base "Authorization" ("Bearer " ++ t)
  | none => base

/-- `getRequestBody(spec, endpoint)` (`codeGenerator.ts` lines 12-22):
no JSON content gives null; a truthy literal example wins; else a truthy
schema is synthesized through the example synthesizer (fueled); else
null. -/
def getRequestBodyF (fuel : Nat) (spec : JsValue) (ep : ParsedEndpoint) :
    Option JsValue :=
  let content := jsAccess (jsAccess ep.operation "requestBody") "content"
  if jsTruthy content then
    let jsonContent := jsAccess content "application/json"
    if jsTruthy (jsAccess jsonContent "example") then
      some (jsAccess jsonContent "example")
    else if jsTruthy (jsAccess jsonContent "schema") then
      genExampleF fuel spec (jsAccess jsonContent "schema")
    else some .null
  else some .null

/-- The substituted value for one path-scoped parameter:
`param.example || param.schema?.example || "\x7bname\x7d"`. -/
def pathParamValue (p : JsValue) : JsValue :=
  if jsTruthy (jsAccess p "example") then jsAccess p "example"
  else if jsTruthy (jsAccess (jsAccess p "schema") "example") then
    jsAccess (jsAccess p "schema") "example"
  else .str ("\x7b" ++ jsToString (jsAccess p "name") ++ "\x7d")

/-- `buildUrl(baseUrl, path, params)` (lines 24-35): concatenate base
and template, then substitute each path-scoped parameter's value into
its brace-delimited slot (first occurrence). -/
def buildUrl (baseUrl path : String) (params : List JsValue) : String :=
  (params.filter (fun p => jsAccess p "in" == .str "path")).foldl
    (fun url p => strReplaceFirst url
      ("\x7b" ++ jsToString (jsAccess p "name") ++ "\x7d")
      (jsToString (pathParamValue p)))
    (baseUrl ++ path)

/-- The query-scoped parameters (`p.in === "query"`). -/
def queryScoped (params : List JsValue) : List JsValue :=
  params.filter (fun p => jsAccess p "in" == .str "query")

/-- The value rendered for one query parameter:
`p.example || p.schema?.example || "value"`. -/
def queryParamValue (p : JsValue) : JsValue :=
  if jsTruthy (jsAccess p "example") then jsAccess p "example"
  else if jsTruthy (jsAccess (jsAccess p "schema") "example") then
    jsAccess (jsAccess p "schema") "example"
  else .str "value"

/-- One rendered `name=value` pair. -/
def queryPair (p : JsValue) : String :=
  jsToString (jsAccess p "name") ++ "=" ++
    encodeURIComponent (jsToString (queryParamValue p))

/-- All rendered pairs, one per query-scoped parameter. -/
def queryPairs (params : List JsValue) : List String :=
  (queryScoped params).map queryPair

/-- `buildQueryString(params)` (lines 37-47): empty when no parameter is
query-scoped, else a question mark followed by the ampersand-joined
pairs. -/
def buildQueryString (params : List JsValue) : String :=
  if queryScoped params = [] then ""
  else "?" ++ String.intercalate "&" (queryPairs params)

/-- The merged parameter list every generator starts from:
`[...(endpoint.pathParameters || []), ...(endpoint.operation.parameters || [])]`. -/
def allParamsOf (ep : ParsedEndpoint) : List JsValue :=
  jsArrElems ep.pathParameters ++ jsArrElems (jsAccess ep.operation "parameters")

/-- The full request URL: path-substituted URL plus query string. -/
def requestUrl (ep : ParsedEndpoint) (options : GenOptions) : String :=
  buildUrl options.baseUrl ep.path (allParamsOf ep) ++
    buildQueryString (allParamsOf ep)

/-- The three body-bearing verbs, upper-cased as the curl, fetch and Go
generators compare them. -/
def bodyVerbsUpper : List String := ["POST", "PUT", "PATCH"]

/-- The three body-bearing verbs, lower-cased as the Python generator
compares them. -/
def bodyVerbsLower : List String := ["post", "put", "patch"]

/-- Re-indentation `split("\n").join("\n  ")` used by the fetch
generator. -/
def indentBy2 (s : String) : String :=
  String.intercalate "\n  " (strSplitOn '\n' s)

/-- The headers record pretty-printed as JSON. -/
def headersJson (indent : Nat) (options : GenOptions) : String :=
  jsonStringify indent 0
    (.obj ((buildHeaders options).map (fun p => (p.1, JsValue.str p.2))))

/-- The curl snippet without the body flag: invocation line plus one -H
continuation per header. -/
def curlSansBody (ep : ParsedEndpoint) (options : GenOptions) : String :=
  "curl -X " ++ strUpper ep.method ++ " \"" ++ requestUrl ep options ++ "\"" ++
    String.join ((buildHeaders options).map
      (fun p => " \x5c\n  -H \"" ++ p.1 ++ ": " ++ p.2 ++ "\""))

/-- The conditional curl body flag. -/
def curlBodyFlag (body : JsValue) : String :=
  " \x5c\n  -d \x27" ++ jsonStringify 2 0 body ++ "\x27"

/-- `generateCurl` (lines 49-81): the body flag is appended only when
the computed body is truthy AND the upper-cased verb is POST, PUT or
PATCH. -/
def generateCurlF (fuel : Nat) (spec : JsValue) (ep : ParsedEndpoint)
    (options : GenOptions) : Option String :=
  (getRequestBodyF fuel spec ep).map (fun body =>
    if jsTruthy body && bodyVerbsUpper.contains (strUpper ep.method) then
      curlSansBody ep options ++ curlBodyFlag body
    else curlSansBody ep options)

/-- The head of the fetch snippet, up to and including the headers
member. -/
def fetchHead (ep : ParsedEndpoint) (options : GenOptions) : String :=
  "const response = await fetch(\"" ++ requestUrl ep options ++
    "\", \x7b\n  method: \"" ++ strUpper ep.method ++ "\",\n  headers: " ++
    indentBy2 (headersJson 4 options) ++ ","

/-- The tail of the fetch snippet. -/
def fetchTail : String :=
  "\n\x7d);\n\nconst data = await response.json();\nconsole.log(data);"

/-- The conditional body member of the fetch snippet. -/
def fetchBodyPart (body : JsValue) : String :=
  "\n  body: JSON.stringify(" ++ indentBy2 (jsonStringify 4 0 body) ++ "),"

/-- The fetch snippet without a body member. -/
def fetchSansBody (ep : ParsedEndpoint) (options : GenOptions) : String :=
  fetchHead ep options ++ fetchTail

/-- `generateJavaScript` (lines 83-117): the body member is inserted
only when the computed body is truthy AND the upper-cased verb is POST,
PUT or PATCH. -/
def generateJavaScriptF (fuel : Nat) (spec : JsValue) (ep : ParsedEndpoint)
    (options : GenOptions) : Option String :=
  (getRequestBodyF fuel spec ep).map (fun body =>
    if jsTruthy body && bodyVerbsUpper.contains (strUpper ep.method) then
      fetchHead ep options ++ fetchBodyPart body ++ fetchTail
    else fetchSansBody ep options)

/-- The head of the Python snippet: import, url and headers lines. -/
def pyHead (ep : ParsedEndpoint) (options : GenOptions) : String :=
  "import requests\n\nurl = \"" ++ requestUrl ep options ++
    "\"\nheaders = " ++ headersJson 4 options ++ "\n"

/-- The tail of the Python snippet. -/
def pyTail : String := "\n\nprint(response.json())"

/-- The payload branch of the Python snippet. -/
def pyPayloadPart (ep : ParsedEndpoint) (body : JsValue) : String :=
  "payload = " ++ jsonStringify 4 0 body ++
    "\n\nresponse = requests." ++ strLower ep.method ++
    "(url, headers=headers, json=payload)"

/-- The body-free branch of the Python snippet. -/
def pyPlainPart (ep : ParsedEndpoint) : String :=
  "\nresponse = requests." ++ strLower ep.method ++ "(url, headers=headers)"

/-- The Python snippet without a payload. -/
def pySansBody (ep : ParsedEndpoint) (options : GenOptions) : String :=
  pyHead ep options ++ pyPlainPart ep ++ pyTail

/-- `generatePython` (lines 119-158): the payload branch is taken only
when the computed body is truthy AND the lower-cased verb is post, put
or patch. -/
def generatePythonF (fuel : Nat) (spec : JsValue) (ep : ParsedEndpoint)
    (options : GenOptions) : Option String :=
  (getRequestBodyF fuel spec ep).map (fun body =>
    if jsTruthy body && bodyVerbsLower.contains (strLower ep.method) then
      pyHead ep options ++ pyPayloadPart ep body ++ pyTail
    else pySansBody ep options)

/-- The Go request-construction lines when a payload is sent. -/
def goBodyWith (ep : ParsedEndpoint) (body : JsValue) : String :=
  "\n    payload := []byte(`" ++ jsonStringify 2 0 body ++
    "`)\n    req, err := http.NewRequest(\"" ++ strUpper ep.method ++
    "\", url, bytes.NewBuffer(payload))"

/-- The Go request-construction line without a payload. -/
def goBodyNil (ep : ParsedEndpoint) : String :=
  "\n    req, err := http.NewRequest(\"" ++ strUpper ep.method ++
    "\", url, nil)"

/-- The Go header-setting lines. -/
def goHeaderLines (options : GenOptions) : String :=
  String.intercalate "\n" ((buildHeaders options).map
    (fun p => "    req.Header.Set(\"" ++ p.1 ++ "\", \"" ++ p.2 ++ "\")"))

/-- The full Go program around a given request-construction section. -/
def goTemplate (ep : ParsedEndpoint) (options : GenOptions)
    (bodyCode : String) : String :=
  "package main\n\nimport (\n    \"bytes\"\n    \"fmt\"\n    \"io\"\n    \"net/http\"\n)\n\nfunc main() \x7b\n    url := \"" ++
    requestUrl ep options ++ "\"\n" ++ bodyCode ++
    "\n    if err != nil \x7b\n        panic(err)\n    \x7d\n\n" ++
    goHeaderLines options ++
    "\n\n    client := &http.Client\x7b\x7d\n    resp, err := client.Do(req)\n    if err != nil \x7b\n        panic(err)\n    \x7d\n    defer resp.Body.Close()\n\n    body, _ := io.ReadAll(resp.Body)\n    fmt.Println(string(body))\n\x7d"

/-- The Go snippet without a payload. -/
def goSansBody (ep : ParsedEndpoint) (options : GenOptions) : String :=
  goTemplate ep options (goBodyNil ep)

/-- `generateGo` (lines 160-221): the payload section is used only when
the computed body is truthy AND the upper-cased verb is POST, PUT or
PATCH. -/
def generateGoF (fuel : Nat) (spec : JsValue) (ep : ParsedEndpoint)
    (options : GenOptions) : Option String :=
  (getRequestBodyF fuel spec ep).map (fun body =>
    if jsTruthy body && bodyVerbsUpper.contains (strUpper ep.method) then
      goTemplate ep options (goBodyWith ep body)
    else goSansBody ep options)

/-- C1 counterexample: a query-scoped parameter with neither an example
nor a default is NOT omitted — it is rendered with the literal
placeholder value "value"; and a parameter with only a default is
rendered with the same placeholder, not its default. -/
theorem buildQueryString_placeholder_counterexample :
    buildQueryString [.obj [("name", .str "status"), ("in", .str "query"),
        ("schema", .obj [("type", .str "string")])]] = "?status=value" ∧
    ("?status=value" : String) ≠ "" ∧
    buildQueryString [.obj [("name", .str "limit"), ("in", .str "query"),
        ("schema", .obj [("type", .str "integer"), ("default", .num 20)])]]
      = "?limit=value" :=
  ⟨by decide, by decide, by decide⟩

/-- C1 (amended): the query string is built from EVERY query-scoped
parameter; a parameter contributes its (truthy) example, else its
schema's (truthy) example, else the literal placeholder "value" —
defaults are never consulted and no parameter is omitted; the query
string is empty exactly when no parameter is query-scoped. -/
theorem buildQueryString_every_query_param :
    (∀ params p, p ∈ params → jsAccess p "in" = .str "query" →
        queryPair p ∈ queryPairs params) ∧
    (∀ params p, p ∈ params → jsAccess p "in" = .str "query" →
        jsTruthy (jsAccess p "example") = false →
        jsTruthy (jsAccess (jsAccess p "schema") "example") = false →
        (jsToString (jsAccess p "name") ++ "=value") ∈ queryPairs params) ∧
    (∀ params, buildQueryString params = "" ↔ queryScoped params = []) := by
  have mem1 : ∀ params p, p ∈ params → jsAccess p "in" = .str "query" →
      queryPair p ∈ queryPairs params := by
    intro params p hp hq
    exact List.mem_map_of_mem _ (List.mem_filter.mpr ⟨hp, by simp [hq]⟩)
  refine ⟨mem1, ?_, ?_⟩
  · intro params p hp hq hex hsex
    have h2 : queryPair p = jsToString (jsAccess p "name") ++ "=value" := by
      unfold queryPair queryParamValue
      simp only [hex, Bool.false_eq_true, if_false, hsex]
      rw [String.append_assoc]
      congr 1
    rw [← h2]
    exact mem1 params p hp hq
  · intro params
    constructor
    · intro h
      by_contra hne
      rw [buildQueryString, if_neg hne] at h
      have hlen := congrArg String.length h
      rw [String.length_append] at hlen
      rw [show ("?" : String).length = 1 from rfl,
        show ("" : String).length = 0 from rfl] at hlen
      omega
    · intro h
      rw [buildQueryString, if_pos h]

/-- Witness for C1: the example-free status parameter is rendered as the
pair status=value. -/
theorem buildQueryString_every_query_param_witness :
    (jsToString (jsAccess (JsValue.obj [("name", .str "status"),
        ("in", .str "query"), ("schema", .obj [("type", .str "string")])]) "name")
      ++ "=value")
      ∈ queryPairs [.obj [("name", .str "status"), ("in", .str "query"),
          ("schema", .obj [("type", .str "string")])]] :=
  buildQueryString_every_query_param.2.1
    [.obj [("name", .str "status"), ("in", .str "query"),
      ("schema", .obj [("type", .str "string")])]]
    (.obj [("name", .str "status"), ("in", .str "query"),
      ("schema", .obj [("type", .str "string")])])
    (by decide) (by decide) (by decide) (by decide)

/-- C9: each of the four generators emits a snippet with a request body
only when the computed body is truthy and the verb (cased as that
generator compares it) is a body-bearing verb; on the seven recognized
verbs the upper-case comparison coincides with membership in
post/put/patch; and for get, delete, options and head the emitted
snippet is exactly the body-free rendering, even when a request body was
computed from a declared schema. -/
theorem generated_body_only_for_write_verbs :
    (∀ fuel spec ep options out,
        generateCurlF fuel spec ep options = some out →
        out ≠ curlSansBody ep options →
        bodyVerbsUpper.contains (strUpper ep.method) = true ∧
        ∃ body, getRequestBodyF fuel spec ep = some body ∧
          jsTruthy body = true) ∧
    (∀ fuel spec ep options out,
        generateJavaScriptF fuel spec ep options = some out →
        out ≠ fetchSansBody ep options →
        bodyVerbsUpper.contains (strUpper ep.method) = true ∧
        ∃ body, getRequestBodyF fuel spec ep = some body ∧
          jsTruthy body = true) ∧
    (∀ fuel spec ep options out,
        generatePythonF fuel spec ep options = some out →
        out ≠ pySansBody ep options →
        bodyVerbsLower.contains (strLower ep.method) = true ∧
        ∃ body, getRequestBodyF fuel spec ep = some body ∧
          jsTruthy body = true) ∧
    (∀ fuel spec ep options out,
        generateGoF fuel spec ep options = some out →
        out ≠ goSansBody ep options →
        bodyVerbsUpper.contains (strUpper ep.method) = true ∧
        ∃ body, getRequestBodyF fuel spec ep = some body ∧
          jsTruthy body = true) ∧
    (∀ m, m ∈ HTTP_METHODS →
        (bodyVerbsUpper.contains (strUpper m) = true ↔ m ∈ bodyVerbsLower)) ∧
    (∀ fuel spec ep options body,
        (ep.method = "get" ∨ ep.method = "delete" ∨
         ep.method = "options" ∨ ep.method = "head") →
        getRequestBodyF fuel spec ep = some body →
        generateCurlF fuel spec ep options = some (curlSansBody ep options) ∧
        generateJavaScriptF fuel spec ep options
          = some (fetchSansBody ep options) ∧
        generatePythonF fuel spec ep options = some (pySansBody ep options) ∧
        generateGoF fuel spec ep options = some (goSansBody ep options)) := by
  refine ⟨?_, ?_, ?_, ?_, ?_, ?_⟩
  · intro fuel spec ep options out hgen hne
    rw [generateCurlF] at hgen
    obtain ⟨body, hbody, hout⟩ := Option.map_eq_some'.mp hgen
    by_cases hc : (jsTruthy body && bodyVerbsUpper.contains (strUpper ep.method)) = true
    · rw [Bool.and_eq_true] at hc
      obtain ⟨h1, h2⟩ := hc
      exact ⟨h2, body, hbody, h1⟩
    · rw [if_neg hc] at hout
      exact (hne hout.symm).elim
  · intro fuel spec ep options out hgen hne
    rw [generateJavaScriptF] at hgen
    obtain ⟨body, hbody, hout⟩ := Option.map_eq_some'.mp hgen
    by_cases hc : (jsTruthy body && bodyVerbsUpper.contains (strUpper ep.method)) = true
    · rw [Bool.and_eq_true] at hc
      obtain ⟨h1, h2⟩ := hc
      exact ⟨h2, body, hbody, h1⟩
    · rw [if_neg hc] at hout
      exact (hne hout.symm).elim
  · intro fuel spec ep options out hgen hne
    rw [generatePythonF] at hgen
    obtain ⟨body, hbody, hout⟩ := Option.map_eq_some'.mp hgen
    by_cases hc : (jsTruthy body && bodyVerbsLower.contains (strLower ep.method)) = true
    · rw [Bool.and_eq_true] at hc
      obtain ⟨h1, h2⟩ := hc
      exact ⟨h2, body, hbody, h1⟩
    · rw [if_neg hc] at hout
      exact (hne hout.symm).elim
  · intro fuel spec ep options out hgen hne
    rw [generateGoF] at hgen
    obtain ⟨body, hbody, hout⟩ := Option.map_eq_some'.mp hgen
    by_cases hc : (jsTruthy body && bodyVerbsUpper.contains (strUpper ep.method)) = true
    · rw [Bool.and_eq_true] at hc
      obtain ⟨h1, h2⟩ := hc
      exact ⟨h2, body, hbody, h1⟩
    · rw [if_neg hc] at hout
      exact (hne hout.symm).elim
  · intro m hm
    simp only [HTTP_METHODS, List.mem_cons, List.not_mem_nil, or_false] at hm
    rcases hm with rfl | rfl | rfl | rfl | rfl | rfl | rfl <;> decide
  · intro fuel spec ep options body hm hbody
    have hcu : bodyVerbsUpper.contains (strUpper ep.method) = false := by
      rcases hm with h | h | h | h <;> rw [h] <;> decide
    have hcl : bodyVerbsLower.contains (strLower ep.method) = false := by
      rcases hm with h | h | h | h <;> rw [h] <;> decide
    refine ⟨?_, ?_, ?_, ?_⟩
    · rw [generateCurlF, hbody, Option.map_some']
      congr 1
      rw [hcu, Bool.and_false]
      simp
    · rw [generateJavaScriptF, hbody, Option.map_some']
      congr 1
      rw [hcu, Bool.and_false]
      simp
    · rw [generatePythonF, hbody, Option.map_some']
      congr 1
      rw [hcl, Bool.and_false]
      simp
    · rw [generateGoF, hbody, Option.map_some']
      congr 1
      rw [hcu, Bool.and_false]
      simp

/-- Witness for C9: a concrete get endpoint that DOES declare a request
body schema (the synthesized body is the truthy string "string"), for
which all four generators nevertheless emit the body-free snippet. -/
theorem generated_body_only_for_write_verbs_witness :
    generateCurlF 2 (.obj [])
        ⟨"get--x", "/x", "get",
          .obj [("requestBody", .obj [("content", .obj [("application/json",
            .obj [("schema", .obj [("type", .str "string")])])])])], .undefined⟩
        ⟨"https://api.example.com", [], none⟩
      = some (curlSansBody
          ⟨"get--x", "/x", "get",
            .obj [("requestBody", .obj [("content", .obj [("application/json",
              .obj [("schema", .obj [("type", .str "string")])])])])], .undefined⟩
          ⟨"https://api.example.com", [], none⟩) ∧
    generatePythonF 2 (.obj [])
        ⟨"get--x", "/x", "get",
          .obj [("requestBody", .obj [("content", .obj [("application/json",
            .obj [("schema", .obj [("type", .str "string")])])])])], .undefined⟩
        ⟨"https://api.example.com", [], none⟩
      = some (pySansBody
          ⟨"get--x", "/x", "get",
            .obj [("requestBody", .obj [("content", .obj [("application/json",
              .obj [("schema", .obj [("type", .str "string")])])])])], .undefined⟩
          ⟨"https://api.example.com", [], none⟩) :=
  ⟨(generated_body_only_for_write_verbs.2.2.2.2.2 2 (.obj [])
      ⟨"get--x", "/x", "get",
        .obj [("requestBody", .obj [("content", .obj [("application/json",
          .obj [("schema", .obj [("type", .str "string")])])])])], .undefined⟩
      ⟨"https://api.example.com", [], none⟩ (.str "string")
      (Or.inl rfl) (by decide)).1,
   (generated_body_only_for_write_verbs.2.2.2.2.2 2 (.obj [])
      ⟨"get--x", "/x", "get",
        .obj [("requestBody", .obj [("content", .obj [("application/json",
          .obj [("schema", .obj [("type", .str "string")])])])])], .undefined⟩
      ⟨"https://api.example.com", [], none⟩ (.str "string")
      (Or.inl rfl) (by decide)).2.2.1⟩
